import Mathlib

/-!
Verification of the deck-assembly constraint engine and the
incremental-sync reconciliation client of the Agent Arena repository.

The roster logic is embedded from `CardSelect` (handleDrop, handleRemove,
isDeckComplete, randomFillDeck, handleStartGame); the sync logic from the
`Game` component's polling interval.
-/

/-- A card from the fixed catalog: identity `id` plus descriptive
attributes (`model`, `expertise`, `personality`), as in `ALL_CARDS`. -/
structure Card where
  id : String
  model : String
  expertise : String
  personality : String
deriving DecidableEq, Repr

/-- The four role keys of `ROLE_REQUIREMENTS`. -/
inductive Role where
  | facilitator
  | critic
  | stateTracker
  | reasoner
deriving DecidableEq, Repr

/-- `ROLE_REQUIREMENTS`: facilitator 1, critic 1, stateTracker 2, reasoner 2. -/
def roleReq : Role → Nat
  | .facilitator => 1
  | .critic => 1
  | .stateTracker => 2
  | .reasoner => 2

/-- Iteration order of `Object.entries(ROLE_REQUIREMENTS)` /
`Object.entries(selectedCards)`: the object-literal insertion order. -/
def roleOrder : List Role :=
  [.facilitator, .critic, .stateTracker, .reasoner]

/-- The `selectedCards` state object: role → ordered list of cards. -/
structure Roster where
  facilitator : List Card
  critic : List Card
  stateTracker : List Card
  reasoner : List Card
deriving DecidableEq, Repr

/-- Field access `selectedCards[roleKey]`. -/
def Roster.get (r : Roster) : Role → List Card
  | .facilitator => r.facilitator
  | .critic => r.critic
  | .stateTracker => r.stateTracker
  | .reasoner => r.reasoner

/-- The spread-update `{ ...selectedCards, [roleKey]: cs }`. -/
def Roster.set (r : Roster) (role : Role) (cs : List Card) : Roster :=
  match role with
  | .facilitator => { r with facilitator := cs }
  | .critic => { r with critic := cs }
  | .stateTracker => { r with stateTracker := cs }
  | .reasoner => { r with reasoner := cs }

/-- `Object.values(selectedCards).flat()`: all assigned cards in
role-then-insertion order. -/
def Roster.flatten (r : Roster) : List Card :=
  r.facilitator ++ r.critic ++ r.stateTracker ++ r.reasoner

/-- The initial `useState` value and the `Clear All` handler's object:
every role empty. -/
def emptyRoster : Roster := ⟨[], [], [], []⟩

/-- The `isAlreadySelected` check of `handleDrop`:
`Object.values(selectedCards).flat().find((c) => c.id === card.id)`
is truthy. -/
def Roster.containsId (r : Roster) (i : String) : Bool :=
  r.flatten.any (fun c => c.id == i)

/-- `handleDrop(roleKey, card)`: reject when the card id is already in any
slot or the role is full, otherwise append the card to that role. -/
def handleDrop (r : Roster) (role : Role) (card : Card) : Roster :=
  let current := r.get role
  let max := roleReq role
  if r.containsId card.id || decide (max ≤ current.length) then r
  else r.set role (current ++ [card])

/-- `handleRemove(roleKey, card)`: filter the card id out of that role. -/
def handleRemove (r : Roster) (role : Role) (card : Card) : Roster :=
  r.set role ((r.get role).filter (fun c => c.id != card.id))

/-- `isDeckComplete()`: every role's length equals its requirement. -/
def isDeckComplete (r : Roster) : Bool :=
  roleOrder.all (fun role => (r.get role).length == roleReq role)

/-- The inner loop of `randomFillDeck`: starting at `cardIndex = idx`,
push `required` cards from `shuffled` while the index stays in bounds,
returning the pushed cards and the final index. -/
def fillRole (shuffled : List Card) : Nat → Nat → List Card × Nat
  | idx, 0 => ([], idx)
  | idx, required + 1 =>
    match shuffled.get? idx with
    | some c =>
      let rest := fillRole shuffled (idx + 1) required
      (c :: rest.1, rest.2)
    | none => ([], idx)

/-- `randomFillDeck()` applied to the shuffled copy of the catalog:
build a fresh deck and fill each role of `roleOrder` in turn from the
running `cardIndex`. -/
def randomFillDeck (shuffled : List Card) : Roster :=
  let f := fillRole shuffled 0 (roleReq .facilitator)
  let c := fillRole shuffled f.2 (roleReq .critic)
  let s := fillRole shuffled c.2 (roleReq .stateTracker)
  let n := fillRole shuffled s.2 (roleReq .reasoner)
  ⟨f.1, c.1, s.1, n.1⟩

/-- One record of the `agents` array built in `handleStartGame`. -/
structure Agent where
  model : String
  expertise : String
  personality : String
  role : Role
deriving DecidableEq, Repr

/-- The `agents` array of `handleStartGame`: for each role of
`Object.entries(selectedCards)` in order, one record per assigned card. -/
def buildAgents (r : Roster) : List Agent :=
  roleOrder.flatMap (fun role =>
    (r.get role).map (fun c => ⟨c.model, c.expertise, c.personality, role⟩))

/-- The user-visible roster operations of `CardSelect`: drop, remove,
the `Clear All` button, and the `Random Fill` button (whose shuffled
catalog copy is recorded in the operation). -/
inductive Op where
  | assign (role : Role) (card : Card)
  | unassign (role : Role) (card : Card)
  | reset
  | randomFill (shuffled : List Card)

/-- Apply one operation to the current `selectedCards` state. -/
def applyOp (r : Roster) : Op → Roster
  | .assign role card => handleDrop r role card
  | .unassign role card => handleRemove r role card
  | .reset => emptyRoster
  | .randomFill shuffled => randomFillDeck shuffled

/-- `[...ALL_CARDS].sort(...)` always yields a permutation of the catalog,
whose ids are distinct; an operation is well-formed when any recorded
shuffle has pairwise-distinct card ids. -/
def opOK : Op → Prop
  | .randomFill shuffled => (shuffled.map Card.id).Nodup
  | _ => True

instance : DecidablePred opOK := fun op => by
  cases op <;> simp [opOK] <;> infer_instance

/-- Global uniqueness: no card id appears twice across the roster. -/
def Roster.nodupIds (r : Roster) : Prop :=
  (r.flatten.map Card.id).Nodup

/-- Every role is at or under its capacity. -/
def Roster.withinCaps (r : Roster) : Prop :=
  ∀ role, (r.get role).length ≤ roleReq role

/-- The roster invariant: global id uniqueness and per-role capacity. -/
def Roster.inv (r : Roster) : Prop :=
  r.nodupIds ∧ r.withinCaps

instance (r : Roster) : Decidable r.nodupIds := by
  unfold Roster.nodupIds; infer_instance

instance (r : Roster) : Decidable r.withinCaps := by
  unfold Roster.withinCaps
  exact decidable_of_iff (∀ role ∈ roleOrder, (r.get role).length ≤ roleReq role)
    (by constructor
        · intro h role; apply h; cases role <;> simp [roleOrder]
        · intro h role _; exact h role)

instance (r : Roster) : Decidable r.inv := by
  unfold Roster.inv; infer_instance

/-- One entry `{ text, colour }` of the `history` state of `Game`. -/
structure HistoryEntry where
  text : String
  colour : String
deriving DecidableEq, Repr

/-- The `text` of the last entry of the log:
`prev[prev.length - 1]?.text` (`none` when the log is empty). -/
def lastText (prev : List HistoryEntry) : Option String :=
  (prev.getLast?).map HistoryEntry.text

/-- The state update of the sync interval: `if (data.text)` guards on a
non-empty (truthy) text, then the functional `setHistory` appends
`{ text: data.text, colour: data.colour }` exactly when
`prev[prev.length - 1]?.text !== data.text`.  An absent `text` field is
`none`; the empty string is falsy. -/
def syncUpdate (prev : List HistoryEntry) (text : Option String)
    (colour : String) : List HistoryEntry :=
  match text with
  | none => prev
  | some t =>
    if t = "" then prev
    else if lastText prev ≠ some t then prev ++ [⟨t, colour⟩]
    else prev

/-- The outcome of one interval tick: either the fetch/json step threw
(caught by the `try`/`catch`), or it produced a payload whose `text` field
may be absent. -/
inductive TickResult where
  | failure
  | success (text : Option String) (colour : String)

/-- One tick of the polling loop: a caught failure only logs and leaves
the history unchanged; a success runs the `setHistory` update. -/
def processTick (prev : List HistoryEntry) : TickResult → List HistoryEntry
  | .failure => prev
  | .success text colour => syncUpdate prev text colour

/-- The polling loop over a finite sequence of tick outcomes. -/
def runTicks (prev : List HistoryEntry) (ticks : List TickResult) :
    List HistoryEntry :=
  ticks.foldl processTick prev

lemma Roster.get_set (r : Roster) (role role2 : Role) (cs : List Card) :
    (r.set role cs).get role2 = if role2 = role then cs else r.get role2 := by
  cases role <;> cases role2 <;> simp [Roster.get, Roster.set]

lemma Roster.flatten_eq_roleOrder (r : Roster) :
    r.flatten = roleOrder.flatMap r.get := by
  simp [Roster.flatten, roleOrder, Roster.get]

lemma Roster.mem_flatten (r : Roster) (c : Card) :
    c ∈ r.flatten ↔ ∃ role, c ∈ r.get role := by
  constructor
  · intro h
    rcases List.mem_append.1 h with h | h
    · rcases List.mem_append.1 h with h | h
      · rcases List.mem_append.1 h with h | h
        · exact ⟨.facilitator, h⟩
        · exact ⟨.critic, h⟩
      · exact ⟨.stateTracker, h⟩
    · exact ⟨.reasoner, h⟩
  · rintro ⟨role, h⟩
    cases role <;> simp [Roster.flatten, Roster.get] at h ⊢ <;> tauto

lemma Roster.containsId_eq_false_iff (r : Roster) (i : String) :
    r.containsId i = false ↔ ∀ c ∈ r.flatten, c.id ≠ i := by
  simp [Roster.containsId]

/-- The flattened roster after a successful drop is a permutation of the
old flattened roster with the card appended. -/
lemma flatten_set_append (r : Roster) (role : Role) (c : Card) :
    (r.set role (r.get role ++ [c])).flatten.Perm (r.flatten ++ [c]) := by
  cases role <;>
    · simp only [Roster.set, Roster.get, Roster.flatten]
      rw [← Multiset.coe_eq_coe]
      simp only [← Multiset.coe_add]
      abel

/-- The flattened roster after a remove is a sublist of the old one. -/
lemma flatten_handleRemove_sublist (r : Roster) (role : Role) (c : Card) :
    (handleRemove r role c).flatten.Sublist r.flatten := by
  cases role <;> simp only [handleRemove, Roster.set, Roster.get, Roster.flatten]
  · exact (((List.filter_sublist _).append (List.Sublist.refl _)).append
      (List.Sublist.refl _)).append (List.Sublist.refl _)
  · exact (((List.Sublist.refl _).append (List.filter_sublist _)).append
      (List.Sublist.refl _)).append (List.Sublist.refl _)
  · exact (((List.Sublist.refl _).append (List.Sublist.refl _)).append
      (List.filter_sublist _)).append (List.Sublist.refl _)
  · exact (((List.Sublist.refl _).append (List.Sublist.refl _)).append
      (List.Sublist.refl _)).append (List.filter_sublist _)

/-- Closed form of the `randomFillDeck` inner loop: it takes `required`
cards starting at `idx` and advances the index by the number taken. -/
lemma fillRole_eq (shuffled : List Card) (idx required : Nat) :
    fillRole shuffled idx required =
      ((shuffled.drop idx).take required,
        idx + min required (shuffled.length - idx)) := by
  induction required generalizing idx with
  | zero => simp [fillRole]
  | succ n ih =>
    by_cases h : idx < shuffled.length
    · have hget : shuffled.get? idx = some (shuffled.get ⟨idx, h⟩) :=
        List.get?_eq_get h
      have hdrop : shuffled.drop idx =
          shuffled.get ⟨idx, h⟩ :: shuffled.drop (idx + 1) :=
        List.drop_eq_getElem_cons h
      rw [fillRole, hget]
      simp only [ih, Prod.mk.injEq]
      constructor
      · rw [hdrop, List.take_succ_cons]
      · have h1 : 1 ≤ shuffled.length - idx := by omega
        omega
    · have hget : shuffled.get? idx = none := by
        rw [List.get?_eq_none]; omega
      rw [fillRole, hget]
      have hnil : shuffled.drop idx = [] := by
        rw [List.drop_eq_nil_iff]; omega
      simp [hnil]
      omega

lemma drop_min_take {α : Type} (l : List α) (n m : Nat) :
    (l.drop (min n l.length)).take m = (l.drop n).take m := by
  by_cases h : n ≤ l.length
  · rw [Nat.min_eq_left h]
  · rw [Nat.min_eq_right (le_of_not_le h), List.drop_length,
      List.drop_eq_nil_of_le (by omega)]

lemma take_chain {α : Type} (l : List α) (a b : Nat) :
    l.take a ++ (l.drop a).take b = l.take (a + b) :=
  (List.take_add l a b).symm

/-- Closed form of `randomFillDeck`: the four roles receive consecutive
segments of the shuffled catalog, of sizes 1, 1, 2, 2. -/
lemma randomFillDeck_eq (sh : List Card) :
    randomFillDeck sh =
      ⟨sh.take 1, (sh.drop 1).take 1, (sh.drop 2).take 2,
        (sh.drop 4).take 2⟩ := by
  rw [randomFillDeck]
  simp only [fillRole_eq, roleReq, Roster.mk.injEq]
  have h1 : 0 + min 1 (sh.length - 0) = min 1 sh.length := by omega
  have h2 : min 1 sh.length + min 1 (sh.length - min 1 sh.length)
      = min 2 sh.length := by omega
  have h3 : min 2 sh.length + min 2 (sh.length - min 2 sh.length)
      = min 4 sh.length := by omega
  refine ⟨by simp, ?_, ?_, ?_⟩
  · rw [h1, drop_min_take]
  · rw [h1, h2, drop_min_take]
  · rw [h1, h2, h3, drop_min_take]

lemma randomFillDeck_flatten (sh : List Card) :
    (randomFillDeck sh).flatten = sh.take 6 := by
  rw [randomFillDeck_eq]
  show sh.take 1 ++ (sh.drop 1).take 1 ++ (sh.drop 2).take 2
      ++ (sh.drop 4).take 2 = sh.take 6
  rw [take_chain sh 1 1, show (1 + 1 : Nat) = 2 from rfl,
    take_chain sh 2 2, show (2 + 2 : Nat) = 4 from rfl,
    take_chain sh 4 2]

lemma flatten_length (r : Roster) :
    r.flatten.length = r.facilitator.length + r.critic.length
      + r.stateTracker.length + r.reasoner.length := by
  simp [Roster.flatten]
  omega

lemma isDeckComplete_iff (r : Roster) :
    isDeckComplete r = true ↔ ∀ role, (r.get role).length = roleReq role := by
  constructor
  · intro h role
    simp [isDeckComplete, roleOrder, Roster.get, roleReq] at h
    cases role <;> simp [Roster.get, roleReq] <;> omega
  · intro h
    simp [isDeckComplete, roleOrder]
    refine ⟨h .facilitator, h .critic, h .stateTracker, h .reasoner⟩

lemma isDeckComplete_flatten_length (r : Roster)
    (h : isDeckComplete r = true) : r.flatten.length = 6 := by
  rw [isDeckComplete_iff] at h
  have hf := h .facilitator
  have hc := h .critic
  have hs := h .stateTracker
  have hr := h .reasoner
  simp [Roster.get, roleReq] at hf hc hs hr
  rw [flatten_length, hf, hc, hs, hr]

/-- `handleDrop` preserves the roster invariant. -/
lemma inv_handleDrop (r : Roster) (role : Role) (c : Card) (h : r.inv) :
    (handleDrop r role c).inv := by
  rw [handleDrop]
  split
  · exact h
  · next hg =>
    simp only [Bool.or_eq_true, decide_eq_true_eq, not_or,
      Bool.not_eq_true, not_le] at hg
    obtain ⟨hid, hlen⟩ := hg
    obtain ⟨hnodup, hcaps⟩ := h
    constructor
    · have hperm := (flatten_set_append r role c).map Card.id
      rw [Roster.nodupIds, hperm.nodup_iff]
      rw [Roster.containsId_eq_false_iff] at hid
      simp only [List.map_append, List.map_cons, List.map_nil,
        List.nodup_append]
      refine ⟨hnodup, List.nodup_singleton _, ?_⟩
      intro x hx
      simp only [List.mem_singleton]
      rcases List.mem_map.1 hx with ⟨d, hd, rfl⟩
      intro hco
      exact hid d hd hco
    · intro role2
      rw [Roster.get_set]
      by_cases h2 : role2 = role
      · subst h2
        rw [if_pos rfl]
        simp only [List.length_append, List.length_singleton]
        omega
      · rw [if_neg h2]
        exact hcaps role2

/-- `handleRemove` preserves the roster invariant. -/
lemma inv_handleRemove (r : Roster) (role : Role) (c : Card) (h : r.inv) :
    (handleRemove r role c).inv := by
  obtain ⟨hnodup, hcaps⟩ := h
  constructor
  · exact ((flatten_handleRemove_sublist r role c).map Card.id).nodup hnodup
  · intro role2
    rw [handleRemove, Roster.get_set]
    by_cases h2 : role2 = role
    · subst h2
      rw [if_pos rfl]
      exact le_trans (List.length_filter_le _ _) (hcaps role2)
    · rw [if_neg h2]
      exact hcaps role2

/-- The empty roster satisfies the invariant. -/
lemma inv_emptyRoster : emptyRoster.inv := by
  constructor
  · simp [Roster.nodupIds, emptyRoster, Roster.flatten]
  · intro role
    cases role <;> simp [emptyRoster, Roster.get, roleReq]

/-- `randomFillDeck` over a shuffle with distinct ids satisfies the
invariant. -/
lemma inv_randomFillDeck (sh : List Card)
    (h : (sh.map Card.id).Nodup) : (randomFillDeck sh).inv := by
  constructor
  · rw [Roster.nodupIds, randomFillDeck_flatten]
    exact (((sh.take_sublist 6).map Card.id)).nodup h
  · intro role
    cases role <;>
      simp [randomFillDeck_eq, Roster.get, roleReq, List.length_take]

/-- Each operation preserves the invariant. -/
lemma inv_applyOp (r : Roster) (op : Op) (h : r.inv) (hop : opOK op) :
    (applyOp r op).inv := by
  cases op with
  | assign role card => exact inv_handleDrop r role card h
  | unassign role card => exact inv_handleRemove r role card h
  | reset => exact inv_emptyRoster
  | randomFill shuffled => exact inv_randomFillDeck shuffled hop

lemma inv_foldl (ops : List Op) (r : Roster) (hr : r.inv)
    (h : ∀ op ∈ ops, opOK op) : (ops.foldl applyOp r).inv := by
  induction ops generalizing r with
  | nil => exact hr
  | cons op rest ih =>
    simp only [List.foldl_cons]
    exact ih _ (inv_applyOp r op hr (h op (by simp)))
      (fun o ho => h o (by simp [ho]))

lemma handleDrop_of_guard_true (r : Roster) (role : Role) (c : Card)
    (h : r.containsId c.id = true ∨ roleReq role ≤ (r.get role).length) :
    handleDrop r role c = r := by
  rw [handleDrop]
  have hg : (r.containsId c.id
      || decide (roleReq role ≤ (r.get role).length)) = true := by
    rcases h with h | h <;> simp [h]
  simp [hg]

lemma handleDrop_of_guard_false (r : Roster) (role : Role) (c : Card)
    (hid : r.containsId c.id = false)
    (hlen : (r.get role).length < roleReq role) :
    handleDrop r role c = r.set role (r.get role ++ [c]) := by
  rw [handleDrop]
  have hg : (r.containsId c.id
      || decide (roleReq role ≤ (r.get role).length)) = false := by
    simp [hid]; omega
  simp [hg]

lemma containsId_handleDrop_self (r : Roster) (role : Role) (c : Card)
    (hid : r.containsId c.id = false)
    (hlen : (r.get role).length < roleReq role) :
    (handleDrop r role c).containsId c.id = true := by
  rw [handleDrop_of_guard_false r role c hid hlen, Roster.containsId,
    List.any_eq_true]
  refine ⟨c, ?_, by simp⟩
  rw [Roster.mem_flatten]
  exact ⟨role, by rw [Roster.get_set, if_pos rfl]; simp⟩

lemma Roster.set_get_self (r : Roster) (role : Role) :
    r.set role (r.get role) = r := by
  cases role <;> rfl

/-- Claim C1: for every sequence of assign (handleDrop), unassign
(handleRemove), reset (Clear All) and randomFill operations starting from
the empty roster — with each random fill drawing from a shuffle with
pairwise-distinct card ids, as the catalog shuffle always is — the
resulting roster has no card id in two roles simultaneously and no role
above its capacity. -/
theorem claim1_roster_invariant (ops : List Op)
    (h : ∀ op ∈ ops, opOK op) : (ops.foldl applyOp emptyRoster).inv :=
  inv_foldl ops emptyRoster inv_emptyRoster h

/-- Claim C1 witness: a concrete operation sequence, including a drop, a
remove, a random fill and a reset, keeps the invariant. -/
theorem claim1_roster_invariant_witness :
    (∀ op ∈ ([Op.assign .reasoner ⟨"3", "Llama", "e", "p"⟩,
        Op.assign .facilitator ⟨"1", "Gemini", "e", "p"⟩,
        Op.assign .reasoner ⟨"3", "Llama", "e", "p"⟩,
        Op.unassign .reasoner ⟨"3", "Llama", "e", "p"⟩,
        Op.randomFill [⟨"1", "a", "b", "c"⟩, ⟨"2", "a", "b", "c"⟩,
          ⟨"3", "a", "b", "c"⟩, ⟨"4", "a", "b", "c"⟩,
          ⟨"5", "a", "b", "c"⟩, ⟨"6", "a", "b", "c"⟩],
        Op.reset,
        Op.assign .critic ⟨"2", "Qwen", "e", "p"⟩] : List Op), opOK op)
    ∧ (([Op.assign .reasoner ⟨"3", "Llama", "e", "p"⟩,
        Op.assign .facilitator ⟨"1", "Gemini", "e", "p"⟩,
        Op.assign .reasoner ⟨"3", "Llama", "e", "p"⟩,
        Op.unassign .reasoner ⟨"3", "Llama", "e", "p"⟩,
        Op.randomFill [⟨"1", "a", "b", "c"⟩, ⟨"2", "a", "b", "c"⟩,
          ⟨"3", "a", "b", "c"⟩, ⟨"4", "a", "b", "c"⟩,
          ⟨"5", "a", "b", "c"⟩, ⟨"6", "a", "b", "c"⟩],
        Op.reset,
        Op.assign .critic ⟨"2", "Qwen", "e", "p"⟩] : List Op).foldl
          applyOp emptyRoster).inv :=
  ⟨by decide, claim1_roster_invariant _ (by decide)⟩

/-- Claim C2: handleDrop rejects and leaves the roster unchanged when the
card id is already present anywhere or the target role is at capacity;
otherwise it appends the card to the end of that role and changes no
other role; and a second identical drop in a row is a no-op, leaving
exactly one entry for that id. -/
theorem claim2_handleDrop_spec (r : Roster) (role : Role) (c : Card) :
    (r.containsId c.id = true ∨ roleReq role ≤ (r.get role).length →
      handleDrop r role c = r)
    ∧ (r.containsId c.id = false → (r.get role).length < roleReq role →
        (handleDrop r role c).get role = r.get role ++ [c]
        ∧ (∀ role2, role2 ≠ role →
            (handleDrop r role c).get role2 = r.get role2)
        ∧ handleDrop (handleDrop r role c) role c = handleDrop r role c
        ∧ ((handleDrop (handleDrop r role c) role c).flatten.filter
            (fun d => d.id == c.id)).length = 1) := by
  constructor
  · exact handleDrop_of_guard_true r role c
  · intro hid hlen
    have hsucc := handleDrop_of_guard_false r role c hid hlen
    have hsecond : handleDrop (handleDrop r role c) role c
        = handleDrop r role c :=
      handleDrop_of_guard_true _ role c
        (Or.inl (containsId_handleDrop_self r role c hid hlen))
    refine ⟨?_, ?_, hsecond, ?_⟩
    · rw [hsucc, Roster.get_set, if_pos rfl]
    · intro role2 h2
      rw [hsucc, Roster.get_set, if_neg h2]
    · rw [hsecond]
      have hperm := (flatten_set_append r role c).filter
        (fun d => d.id == c.id)
      rw [hsucc, hperm.length_eq]
      rw [List.filter_append]
      have hnone : r.flatten.filter (fun d => d.id == c.id) = [] := by
        rw [List.filter_eq_nil_iff]
        intro d hd
        rw [Roster.containsId_eq_false_iff] at hid
        simpa using hid d hd
      rw [hnone]
      simp

/-- Claim C2 witness: dropping a concrete card on an empty reasoner slot
appends it, leaves the other roles empty, and a repeated identical drop
is a no-op with exactly one entry for the id. -/
theorem claim2_handleDrop_spec_witness :
    emptyRoster.containsId "3" = false
    ∧ (emptyRoster.get .reasoner).length < roleReq .reasoner
    ∧ (handleDrop emptyRoster .reasoner ⟨"3", "Llama", "e", "p"⟩).get
        .reasoner = emptyRoster.get .reasoner ++ [⟨"3", "Llama", "e", "p"⟩]
    ∧ handleDrop (handleDrop emptyRoster .reasoner ⟨"3", "Llama", "e", "p"⟩)
        .reasoner ⟨"3", "Llama", "e", "p"⟩
      = handleDrop emptyRoster .reasoner ⟨"3", "Llama", "e", "p"⟩
    ∧ ((handleDrop (handleDrop emptyRoster .reasoner
          ⟨"3", "Llama", "e", "p"⟩) .reasoner
          ⟨"3", "Llama", "e", "p"⟩).flatten.filter
        (fun d => d.id == "3")).length = 1 := by
  have h := (claim2_handleDrop_spec emptyRoster .reasoner
    ⟨"3", "Llama", "e", "p"⟩).2 (by decide) (by decide)
  exact ⟨by decide, by decide, h.1, h.2.2.1, h.2.2.2⟩

/-- Claim C9: handleRemove removes the card with matching id from the
given role, leaves every other role unchanged, and is a no-op (not an
error) when no card with that id is in the given role. -/
theorem claim9_handleRemove_spec (r : Roster) (role : Role) (c : Card) :
    (handleRemove r role c).get role
      = (r.get role).filter (fun d => d.id != c.id)
    ∧ (∀ role2, role2 ≠ role →
        (handleRemove r role c).get role2 = r.get role2)
    ∧ ((∀ d ∈ r.get role, d.id ≠ c.id) → handleRemove r role c = r) := by
  refine ⟨?_, ?_, ?_⟩
  · rw [handleRemove, Roster.get_set, if_pos rfl]
  · intro role2 h2
    rw [handleRemove, Roster.get_set, if_neg h2]
  · intro habs
    rw [handleRemove]
    have : (r.get role).filter (fun d => d.id != c.id) = r.get role := by
      rw [List.filter_eq_self]
      intro d hd
      simpa using habs d hd
    rw [this, Roster.set_get_self]

/-- Claim C9 witness: removing id 2 from a critic slot holding ids 1
and 2 keeps only id 1, leaves the other roles alone, and removing an
absent id is a no-op. -/
theorem claim9_handleRemove_spec_witness :
    (handleRemove ⟨[⟨"9", "m", "e", "p"⟩], [⟨"1", "m", "e", "p"⟩],
        [], [⟨"2", "m", "e", "p"⟩]⟩ .reasoner ⟨"2", "x", "y", "z"⟩).get
        .reasoner = []
    ∧ (∀ d ∈ (⟨[⟨"9", "m", "e", "p"⟩], [⟨"1", "m", "e", "p"⟩], [],
        [⟨"2", "m", "e", "p"⟩]⟩ : Roster).get .critic, d.id ≠ "7")
    ∧ handleRemove ⟨[⟨"9", "m", "e", "p"⟩], [⟨"1", "m", "e", "p"⟩], [],
        [⟨"2", "m", "e", "p"⟩]⟩ .critic ⟨"7", "x", "y", "z"⟩
      = ⟨[⟨"9", "m", "e", "p"⟩], [⟨"1", "m", "e", "p"⟩], [],
        [⟨"2", "m", "e", "p"⟩]⟩ := by
  refine ⟨?_, by decide, ?_⟩
  · rw [(claim9_handleRemove_spec _ .reasoner _).1]
    decide
  · exact (claim9_handleRemove_spec _ .critic
      ⟨"7", "x", "y", "z"⟩).2.2 (by decide)

/-- Claim C5: isDeckComplete is true iff every role's assigned count
equals exactly its required capacity; equivalently, under the per-role
capacity bound, iff the total assigned count is 6. -/
theorem claim5_isDeckComplete_spec (r : Roster) :
    (isDeckComplete r = true ↔ ∀ role, (r.get role).length = roleReq role)
    ∧ (r.withinCaps → (isDeckComplete r = true ↔ r.flatten.length = 6)) := by
  refine ⟨isDeckComplete_iff r, ?_⟩
  intro hcaps
  constructor
  · exact isDeckComplete_flatten_length r
  · intro hlen
    rw [isDeckComplete_iff]
    have hf := hcaps .facilitator
    have hc := hcaps .critic
    have hs := hcaps .stateTracker
    have hr := hcaps .reasoner
    rw [flatten_length] at hlen
    simp only [Roster.get, roleReq] at hf hc hs hr
    intro role
    cases role <;> simp only [Roster.get, roleReq] <;> omega

/-- Claim C5 witness: a roster with every role under capacity but total
below 6 is not complete, and a full roster is; instantiated through the
flattened-count equivalence at a one-card roster. -/
theorem claim5_isDeckComplete_spec_witness :
    (⟨[⟨"1", "m", "e", "p"⟩], [], [], []⟩ : Roster).withinCaps
    ∧ (isDeckComplete ⟨[⟨"1", "m", "e", "p"⟩], [], [], []⟩ = true
        ↔ (⟨[⟨"1", "m", "e", "p"⟩], [], [], []⟩ : Roster).flatten.length
            = 6) :=
  ⟨by decide, (claim5_isDeckComplete_spec _).2 (by decide)⟩

/-- Claim C6: for every complete roster, the agents array built in
handleStartGame has exactly 6 entries, each carrying the card's model,
its two trait strings and its role, ordered role-by-role in the fixed
iteration order and, within a role, in assignment order. -/
theorem claim6_buildAgents_spec (r : Roster) (h : isDeckComplete r = true) :
    (buildAgents r).length = 6
    ∧ buildAgents r =
        r.facilitator.map
            (fun c => ⟨c.model, c.expertise, c.personality, .facilitator⟩)
          ++ r.critic.map
            (fun c => ⟨c.model, c.expertise, c.personality, .critic⟩)
          ++ r.stateTracker.map
            (fun c => ⟨c.model, c.expertise, c.personality, .stateTracker⟩)
          ++ r.reasoner.map
            (fun c => ⟨c.model, c.expertise, c.personality, .reasoner⟩)
    ∧ (buildAgents r).map Agent.role
        = [.facilitator, .critic, .stateTracker, .stateTracker,
            .reasoner, .reasoner] := by
  rw [isDeckComplete_iff] at h
  have hf := h .facilitator
  have hc := h .critic
  have hs := h .stateTracker
  have hr := h .reasoner
  simp only [Roster.get, roleReq] at hf hc hs hr
  refine ⟨?_, ?_, ?_⟩
  · simp [buildAgents, roleOrder, Roster.get, hf, hc, hs, hr]
  · simp [buildAgents, roleOrder, Roster.get]
  · have hrep : (buildAgents r).map Agent.role
        = List.replicate r.facilitator.length .facilitator
          ++ List.replicate r.critic.length .critic
          ++ List.replicate r.stateTracker.length .stateTracker
          ++ List.replicate r.reasoner.length .reasoner := by
      simp [buildAgents, roleOrder, Roster.get, Function.comp_def,
        List.map_const']
    rw [hrep, hf, hc, hs, hr]
    rfl

/-- Claim C6 witness: a concrete complete roster flattens to six agents
in role-then-insertion order. -/
theorem claim6_buildAgents_spec_witness :
    isDeckComplete ⟨[⟨"1", "Gemini", "e1", "p1"⟩],
        [⟨"2", "Qwen", "e2", "p2"⟩],
        [⟨"3", "Llama", "e3", "p3"⟩, ⟨"4", "Kimi", "e4", "p4"⟩],
        [⟨"5", "ChatGPT", "e5", "p5"⟩, ⟨"6", "Gemini", "e6", "p6"⟩]⟩ = true
    ∧ (buildAgents ⟨[⟨"1", "Gemini", "e1", "p1"⟩],
        [⟨"2", "Qwen", "e2", "p2"⟩],
        [⟨"3", "Llama", "e3", "p3"⟩, ⟨"4", "Kimi", "e4", "p4"⟩],
        [⟨"5", "ChatGPT", "e5", "p5"⟩,
          ⟨"6", "Gemini", "e6", "p6"⟩]⟩).length = 6
    ∧ (buildAgents ⟨[⟨"1", "Gemini", "e1", "p1"⟩],
        [⟨"2", "Qwen", "e2", "p2"⟩],
        [⟨"3", "Llama", "e3", "p3"⟩, ⟨"4", "Kimi", "e4", "p4"⟩],
        [⟨"5", "ChatGPT", "e5", "p5"⟩,
          ⟨"6", "Gemini", "e6", "p6"⟩]⟩).map Agent.role
      = [.facilitator, .critic, .stateTracker, .stateTracker,
          .reasoner, .reasoner] := by
  have h := claim6_buildAgents_spec ⟨[⟨"1", "Gemini", "e1", "p1"⟩],
    [⟨"2", "Qwen", "e2", "p2"⟩],
    [⟨"3", "Llama", "e3", "p3"⟩, ⟨"4", "Kimi", "e4", "p4"⟩],
    [⟨"5", "ChatGPT", "e5", "p5"⟩, ⟨"6", "Gemini", "e6", "p6"⟩]⟩ (by decide)
  exact ⟨by decide, h.1, h.2.2⟩

/-- Claim C4: randomFillDeck on a shuffled catalog with pairwise-distinct
ids always yields an invariant-satisfying roster filled with consecutive
draws in the fixed role order; with at least 6 cards the roster is
complete, with fewer it is partially filled and incomplete, without
error. -/
theorem claim4_randomFillDeck_spec (sh : List Card)
    (h : (sh.map Card.id).Nodup) :
    (randomFillDeck sh).inv
    ∧ (randomFillDeck sh).flatten = sh.take 6
    ∧ (6 ≤ sh.length → isDeckComplete (randomFillDeck sh) = true)
    ∧ (sh.length < 6 → isDeckComplete (randomFillDeck sh) = false) := by
  refine ⟨inv_randomFillDeck sh h, randomFillDeck_flatten sh, ?_, ?_⟩
  · intro h6
    rw [isDeckComplete_iff]
    intro role
    cases role <;>
      simp [randomFillDeck_eq, Roster.get, roleReq, List.length_take] <;>
      omega
  · intro h6
    cases hb : isDeckComplete (randomFillDeck sh) with
    | false => rfl
    | true =>
      exfalso
      have hlen := isDeckComplete_flatten_length _ hb
      rw [randomFillDeck_flatten] at hlen
      simp [List.length_take] at hlen
      omega

/-- Claim C4 witness: a 6-card shuffle with distinct ids fills the deck
completely, and a 3-card shuffle leaves it incomplete. -/
theorem claim4_randomFillDeck_spec_witness :
    (([⟨"1", "a", "b", "c"⟩, ⟨"2", "a", "b", "c"⟩, ⟨"3", "a", "b", "c"⟩,
        ⟨"4", "a", "b", "c"⟩, ⟨"5", "a", "b", "c"⟩,
        ⟨"6", "a", "b", "c"⟩] : List Card).map Card.id).Nodup
    ∧ isDeckComplete (randomFillDeck [⟨"1", "a", "b", "c"⟩,
        ⟨"2", "a", "b", "c"⟩, ⟨"3", "a", "b", "c"⟩, ⟨"4", "a", "b", "c"⟩,
        ⟨"5", "a", "b", "c"⟩, ⟨"6", "a", "b", "c"⟩]) = true
    ∧ isDeckComplete (randomFillDeck [⟨"1", "a", "b", "c"⟩,
        ⟨"2", "a", "b", "c"⟩, ⟨"3", "a", "b", "c"⟩]) = false := by
  refine ⟨by decide, ?_, ?_⟩
  · exact (claim4_randomFillDeck_spec _ (by decide)).2.2.1 (by decide)
  · exact (claim4_randomFillDeck_spec _ (by decide)).2.2.2 (by decide)

/-- Claim C10: the Random Fill operation replaces the whole roster: its
result is independent of the prior roster state and is built solely from
the first six cards of the shuffled catalog in the fixed role order, so
previously assigned cards are discarded unless re-drawn. -/
theorem claim10_randomFill_replaces (r r' : Roster) (sh : List Card) :
    applyOp r (Op.randomFill sh) = applyOp r' (Op.randomFill sh)
    ∧ applyOp r (Op.randomFill sh) = randomFillDeck sh
    ∧ (applyOp r (Op.randomFill sh)).flatten = sh.take 6 :=
  ⟨rfl, rfl, randomFillDeck_flatten sh⟩

/-- Claim C3: a polled snapshot appends an entry to the history log
exactly when its text is non-empty and differs from the last entry's
text (including when the log is empty); an identical, empty or absent
text leaves the log unchanged; and the tip sequence A, A, B, B, A yields
the history A, B, A. -/
theorem claim3_syncUpdate_spec :
    (∀ prev (t : String) colour, t ≠ "" → lastText prev ≠ some t →
        syncUpdate prev (some t) colour = prev ++ [⟨t, colour⟩])
    ∧ (∀ prev (t : String) colour, lastText prev = some t →
        syncUpdate prev (some t) colour = prev)
    ∧ (∀ prev colour, syncUpdate prev (some "") colour = prev)
    ∧ (∀ prev colour, syncUpdate prev none colour = prev)
    ∧ (runTicks [] [.success (some "A") "g", .success (some "A") "g",
        .success (some "B") "b", .success (some "B") "b",
        .success (some "A") "g"]).map HistoryEntry.text
      = ["A", "B", "A"] := by
  refine ⟨?_, ?_, fun prev colour => by simp [syncUpdate],
    fun prev colour => rfl, by decide⟩
  · intro prev t colour ht hlast
    rw [syncUpdate]
    rw [if_neg ht, if_pos hlast]
  · intro prev t colour hlast
    rw [syncUpdate]
    by_cases ht : t = ""
    · rw [if_pos ht]
    · rw [if_neg ht, if_neg (by simp [hlast])]

/-- Claim C3 witness: on an empty log the tip A is appended; a repeated
tip A is discarded. -/
theorem claim3_syncUpdate_spec_witness :
    ("A" : String) ≠ ""
    ∧ lastText [] ≠ some "A"
    ∧ syncUpdate [] (some "A") "g" = [⟨"A", "g"⟩]
    ∧ lastText [⟨"A", "g"⟩] = some "A"
    ∧ syncUpdate [⟨"A", "g"⟩] (some "A") "g" = [⟨"A", "g"⟩] :=
  ⟨by decide, by decide,
    claim3_syncUpdate_spec.1 [] "A" "g" (by decide) (by decide),
    by decide,
    claim3_syncUpdate_spec.2.1 [⟨"A", "g"⟩] "A" "g" (by decide)⟩

/-- Claim C7: a tick whose fetch throws or whose body fails to parse is
caught, leaves the history log unchanged, and does not prevent any
subsequent tick of the polling loop from being processed. -/
theorem claim7_failure_spec :
    (∀ prev, processTick prev .failure = prev)
    ∧ (∀ prev rest, runTicks prev (.failure :: rest) = runTicks prev rest)
    ∧ (∀ prev pre post, runTicks prev (pre ++ .failure :: post)
        = runTicks prev (pre ++ post)) := by
  refine ⟨fun prev => rfl, fun prev rest => rfl, ?_⟩
  intro prev pre post
  simp [runTicks, List.foldl_append, List.foldl_cons, processTick]
